/-
Verification of the FireAlarmApp notification controller
(src/controllers/notifications.controller.js).

The development shallowly embeds the controller's data model and the
alarm-confirmation rendezvous protocol:

* `notifyAllUsers` / `fanOutLoop` — the push-notification fan-out loop;
* `unixToDate` — the prompt's trigger-time formatter;
* `confirmAlarmStart` — the validation / dispatch / map-insert prefix of
  `confirmAlarm`, up to the `await delay(15)` suspension point;
* `wakeStep` — the timeout wake that closes `confirmAlarm`;
* `logResponse` — the `/response` correlator.

The Node.js event loop is single-threaded: each synchronous block between
`await` points runs atomically.  The rendezvous is therefore modelled as a
sequence of atomic steps (`insertStep`, `wakeStep`, `logResponse`) on a
system state holding the shared `alarmMap` and the list of HTTP responses
written so far.
-/
import Mathlib

set_option autoImplicit false

namespace FireAlarm

/-- A push subscription row (`db.subscription`): endpoint, key material and
the owning user's id, as selected by the controller. -/
structure Subscription where
  endpoint : String
  p256dh : String
  auth : String
  userId : Nat
deriving Repr, DecidableEq

/-- An alarm row (`db.alarm`): primary key `id`, the external `alarmSerial`,
the (nullable) assigned user and the location label. -/
structure Alarm where
  id : Nat
  alarmSerial : String
  userId : Option Nat
  location : String
deriving Repr, DecidableEq

/-- The data store backing `db.alarm.findAll` / `db.subscription.findAll`. -/
structure Store where
  alarms : List Alarm
  subscriptions : List Subscription
deriving Repr

/-- `db.alarm.findAll({where: {alarmSerial: alarmId}})`: all alarm rows whose
serial matches, in store order. -/
def findAlarmsBySerial (store : Store) (alarmId : String) : List Alarm :=
  store.alarms.filter (fun a => a.alarmSerial == alarmId)

/-- `db.subscription.findAll({where: {userId: uid}})`: all subscription rows
of the given user, in store order. -/
def findSubscriptionsByUser (store : Store) (uid : Nat) : List Subscription :=
  store.subscriptions.filter (fun s => s.userId == uid)

/-- JavaScript truthiness of `alarm.userId` as used in `if (!alarm.userId)`:
`null`/`undefined` and `0` are falsy. -/
def jsFalsyId : Option Nat → Bool
  | none => true
  | some n => n == 0

/-- The error string pushed for each failed dispatch
(`errors.push('Error occurred when sending notification')`). -/
def dispatchErrorMsg : String := "Error occurred when sending notification"

/-- The shared dispatch loop of `notifyAllUsers` and `confirmAlarm`:
for each subscription in order, call `push.sendNotification`; on success
increment `successfulNotifications`, on failure append `dispatchErrorMsg`.
`dispatch` is the push-service oracle (`true` = the send succeeded).
Returns `(successfulNotifications, errors, subscriptions dispatched)`. -/
def fanOutLoop (dispatch : Subscription → Bool) :
    List Subscription → Nat × List String × List Subscription
  | [] => (0, [], [])
  | s :: rest =>
    let r := fanOutLoop dispatch rest
    if dispatch s then (r.1 + 1, r.2.1, s :: r.2.2)
    else (r.1, dispatchErrorMsg :: r.2.1, s :: r.2.2)

/-- The aggregate body returned by `notifyAllUsers` and carried by
`confirmAlarm`'s responses. -/
structure FanOutResult where
  totalSubscriptions : Nat
  successfulNotifications : Nat
  errors : List String
deriving Repr, DecidableEq

/-- `notifyAllUsers`: if there are no subscriptions, return the zero
aggregate without dispatching; otherwise run the dispatch loop and report
the counts.  The second component is the list of subscriptions actually
handed to the push dispatcher. -/
def notifyAllUsers (dispatch : Subscription → Bool)
    (dbSubscriptions : List Subscription) : FanOutResult × List Subscription :=
  if dbSubscriptions.length = 0 then (⟨0, 0, []⟩, [])
  else
    let r := fanOutLoop dispatch dbSubscriptions
    (⟨dbSubscriptions.length, r.1, r.2.1⟩, r.2.2)

/-! ### Time formatting (`unixToDate`) -/

/-- JavaScript `String.prototype.substring(start)`: a negative `start` is
clamped to `0`, so `s.substring(-2)` returns the whole string. -/
def jsSubstring (start : Int) (s : String) : String :=
  s.drop (max start 0).toNat

/-- `unixToDate(unix_timestamp)`.  `getHours`/`getMinutes`/`getSeconds` are
local-time components; `tz` is the local timezone offset in minutes added to
the UTC timestamp.  The source's single-digit-seconds branch prepends `"0"`
to the `minutes` variable (`seconds = "0" + minutes`), not to `seconds`. -/
def unixToDate (tz : Nat) (unix_timestamp : Nat) : String :=
  let localSecs := unix_timestamp + tz * 60
  let hours := localSecs / 3600 % 24
  let minutes0 := toString (localSecs / 60 % 60)
  let seconds0 := toString (localSecs % 60)
  let minutes := if minutes0.length = 1 then "0" ++ minutes0 else minutes0
  let seconds := if seconds0.length = 1 then "0" ++ minutes else seconds0
  toString hours ++ ":" ++ jsSubstring (-2) minutes ++ ":" ++ jsSubstring (-2) seconds

/-- The local minutes string after the two-digit padding applied by
`unixToDate` (the value of its `minutes` variable at the return). -/
def paddedMinutesStr (tz : Nat) (unix_timestamp : Nat) : String :=
  let minutes0 := toString ((unix_timestamp + tz * 60) / 60 % 60)
  if minutes0.length = 1 then "0" ++ minutes0 else minutes0

/-- The seconds string a correct two-digit padding would produce
(what the `seconds` branch was evidently meant to compute). -/
def correctPaddedSecondsStr (tz : Nat) (unix_timestamp : Nat) : String :=
  let seconds0 := toString ((unix_timestamp + tz * 60) % 60)
  if seconds0.length = 1 then "0" ++ seconds0 else seconds0

/-! ### The rendezvous state: `alarmMap` and the HTTP responses written -/

/-- A pending confirmation entry, i.e. the array
`[res, alarm.userId, dbSubscriptions.length, successfulNotifications, errors, alarm.location]`
stored in `alarmMap`.  The suspended Express `res` object is identified by a
numeric id (`resId`), one per HTTP request. -/
structure Entry where
  resId : Nat
  ownerUserId : Nat
  totalSubscriptions : Nat
  successfulNotifications : Nat
  errors : List String
  location : String
deriving Repr, DecidableEq

/-- The process-wide `alarmMap` (`let alarmMap = new Map()`): an insertion
ordered key-to-entry map. -/
abbrev AlarmMap := List (String × Entry)

/-- `alarmMap.set(key, entry)`: update in place when the key is present
(JavaScript `Map.set` keeps the original insertion position), otherwise
append at the end. -/
def mapSet (k : String) (e : Entry) : AlarmMap → AlarmMap
  | [] => [(k, e)]
  | (k', e') :: rest =>
    if k' == k then (k', e) :: rest else (k', e') :: mapSet k e rest

/-- `alarmMap.get(key)`: the entry bound to `key`, if any. -/
def mapGet (k : String) : AlarmMap → Option Entry
  | [] => none
  | (k', e) :: rest => if k' == k then some e else mapGet k rest

/-- `alarmMap.delete(key)`: remove the (single) binding of `key`. -/
def mapDelete (k : String) : AlarmMap → AlarmMap
  | [] => []
  | (k', e) :: rest => if k' == k then rest else (k', e) :: mapDelete k rest

/-- A JSON/text body written by the controller. -/
inductive Body where
  /-- The `{confirmed, location, totalSubscriptions, successfulNotifications,
  errors}` object; `confirmed` is the raw string the code sends (`'null'` on
  timeout, the `confirmed` query parameter otherwise). -/
  | confirmResult (confirmed : String) (location : String)
      (totalSubscriptions successfulNotifications : Nat) (errors : List String)
  /-- A `{"error": msg}` object. -/
  | errorMsg (error : String)
  /-- A plain-text body (`res.send`). -/
  | text (s : String)
deriving Repr, DecidableEq

/-- One HTTP response written: which `res` object, the status, and the body. -/
structure Output where
  resId : Nat
  status : Nat
  body : Body
deriving Repr, DecidableEq

/-- The system state: the shared `alarmMap` plus the responses written so
far (in write order). -/
structure Sys where
  map : AlarmMap
  outputs : List Output
deriving Repr, DecidableEq

/-! ### `confirmAlarm` -/

/-- The outcome of `confirmAlarm`'s synchronous prefix (everything before
`await delay(15)`). -/
inductive StartResult where
  /-- An early `return res.status(status).json({error})`; nothing is
  dispatched and nothing is inserted into `alarmMap`. -/
  | notFound (status : Nat) (error : String)
  /-- Validation passed: the prompt was fanned out and
  `alarmMap.set(key, e)` ran. -/
  | inserted (key : String) (e : Entry)
deriving Repr, DecidableEq

/-- `confirmAlarm` up to its suspension point: look up the alarm by serial,
check the assigned user, look up the subscriptions (404 on each failure),
fan out the confirmation prompt, then build `key = alarm.id + '-' + timeStamp`
and the `alarmMap` entry.  `resId` identifies this request's `res` object.
Returns the outcome paired with the subscriptions handed to the dispatcher. -/
def confirmAlarmStart (store : Store) (dispatch : Subscription → Bool)
    (alarmId : String) (timeStamp : Nat) (resId : Nat) :
    StartResult × List Subscription :=
  match findAlarmsBySerial store alarmId with
  | [] => (.notFound 404 "Couldn't find alarm with provided alarm ID", [])
  | alarm :: _ =>
    if jsFalsyId alarm.userId then
      (.notFound 404 "Alarm doesn't have a user assigned", [])
    else
      let uid := alarm.userId.getD 0
      let dbSubscriptions := findSubscriptionsByUser store uid
      if dbSubscriptions.length = 0 then
        (.notFound 404 "Couldn't find user in subscriptions", [])
      else
        let r := fanOutLoop dispatch dbSubscriptions
        let key := toString alarm.id ++ "-" ++ toString timeStamp
        (.inserted key
          ⟨resId, uid, dbSubscriptions.length, r.1, r.2.1, alarm.location⟩,
          r.2.2)

/-- The effect of `confirmAlarm`'s prefix on `alarmMap`: a 404 leaves the
map untouched; otherwise `alarmMap.set(key, e)`. -/
def confirmAlarmEffect (sr : StartResult) (m : AlarmMap) : AlarmMap :=
  match sr with
  | .notFound _ _ => m
  | .inserted k e => mapSet k e m

/-- `alarmMap.set(key, e)` as a step on the system state. -/
def insertStep (k : String) (e : Entry) (s : Sys) : Sys :=
  { s with map := mapSet k e s.map }

/-- `delay(seconds)` waits `seconds * 1000` milliseconds
(`setTimeout(resolve, seconds * 1000)`). -/
def delayMs (seconds : Nat) : Nat := seconds * 1000

/-- The argument `confirmAlarm` passes to `delay` (`await delay(15)`). -/
def confirmDelaySeconds : Nat := 15

/-- The timeout body `confirmAlarm` writes on wake, built from its own
captured locals (not from whatever the map holds at that point):
`{'confirmed': 'null', location, counts, errors}`. -/
def timeoutBody (e : Entry) : Body :=
  .confirmResult "null" e.location e.totalSubscriptions
    e.successfulNotifications e.errors

/-- `confirmAlarm` waking after `delay(15)`, with its own key `k` and its
captured locals `e`: if `alarmMap.get(k)` is truthy (any stored array is),
delete the key and respond 200 with the timeout body to this request's own
`res`; otherwise the function falls off the end without responding. -/
def wakeStep (k : String) (e : Entry) (s : Sys) : Sys :=
  match mapGet k s.map with
  | some _ =>
    { map := mapDelete k s.map
      outputs := s.outputs ++ [⟨e.resId, 200, timeoutBody e⟩] }
  | none => s

/-! ### `logResponse` -/

/-- The body `logResponse` writes into a matched entry's suspended `res`:
the responder's `confirmed` query string plus the entry's captured fields. -/
def responseBody (confirmed : String) (e : Entry) : Body :=
  .confirmResult confirmed e.location e.totalSubscriptions
    e.successfulNotifications e.errors

/-- The `for (const [key, value] of alarmMap)` loop of `logResponse`: each
entry whose `ownerUserId` equals the responder's id is answered with
`responseBody` and deleted (deleting the entry under iteration is safe in
a JavaScript `Map`); other entries are kept.  Returns the remaining map and
the responses written, in iteration order. -/
def logResponseLoop (userId : Nat) (confirmed : String) :
    AlarmMap → AlarmMap × List Output
  | [] => ([], [])
  | (k, e) :: rest =>
    let r := logResponseLoop userId confirmed rest
    if e.ownerUserId == userId then
      (r.1, ⟨e.resId, 200, responseBody confirmed e⟩ :: r.2)
    else ((k, e) :: r.1, r.2)

/-- `logResponse` as a step on the system state: run the matching loop over
`alarmMap` for the authenticated user's id and the raw `confirmed` query
string, then answer the responder's own request (`responderResId`) with
200 `'Response received'`. -/
def logResponse (userId : Nat) (confirmed : String) (responderResId : Nat)
    (s : Sys) : Sys :=
  let r := logResponseLoop userId confirmed s.map
  { map := r.1
    outputs := s.outputs ++ r.2 ++ [⟨responderResId, 200, .text "Response received"⟩] }

/-! ### Interleavings -/

/-- An atomic step of the event loop touching `alarmMap`: a `confirmAlarm`
timeout wake, or a `logResponse` call. -/
inductive Event where
  | wake (k : String) (e : Entry)
  | respond (userId : Nat) (confirmed : String) (responderResId : Nat)
deriving Repr, DecidableEq

/-- Execute one event. -/
def step : Event → Sys → Sys
  | .wake k e => wakeStep k e
  | .respond u c rid => logResponse u c rid

/-- Execute a sequence of events in order. -/
def run : List Event → Sys → Sys
  | [], s => s
  | ev :: evs, s => run evs (step ev s)

/-- Number of responses written to the `res` object `r`. -/
def outCount (r : Nat) (outs : List Output) : Nat :=
  (outs.filter (fun o => o.resId == r)).length

/-- Number of pending entries whose suspended `res` object is `r`. -/
def sinkCount (r : Nat) (m : AlarmMap) : Nat :=
  (m.filter (fun p => p.2.resId == r)).length

/-- The events claim C1 ranges over for the pending entry `(k, e)`: the
entry's own timeout wake, and `logResponse` calls from responder requests
other than the suspended caller itself. -/
def isObserverEvent (k : String) (e : Entry) : Event → Prop
  | .wake k' e' => k' = k ∧ e' = e
  | .respond _ _ rid => rid ≠ e.resId

/-- Mutual-exclusion invariant for the entry whose suspended caller is `r`
and whose correlation key is `k`: the caller has been answered at most once
counting its still-pending map entries, and key `k` only ever binds `r`. -/
def oneCompletionInv (k : String) (r : Nat) (s : Sys) : Prop :=
  outCount r s.outputs + sinkCount r s.map ≤ 1 ∧
  ∀ p ∈ s.map, p.1 = k → p.2.resId = r

/-! ### Concrete sample data (used to instantiate the theorems) -/

/-- A sample alarm row: serial `A1`, assigned to user 1. -/
def demoAlarm : Alarm := ⟨1, "A1", some 1, "Dorm A"⟩

/-- A sample subscription row of user 1. -/
def demoSub : Subscription := ⟨"ep1", "p1", "a1", 1⟩

/-- A sample store holding `demoAlarm` and `demoSub`. -/
def demoStore : Store := ⟨[demoAlarm], [demoSub]⟩

/-- A store with no rows at all. -/
def emptyStore : Store := ⟨[], []⟩

/-- A push dispatcher for which every send succeeds. -/
def allOk : Subscription → Bool := fun _ => true

/-- The pending entry `confirmAlarm demoStore allOk "A1" 2 10` inserts. -/
def demoEntry : Entry := ⟨10, 1, 1, 1, [], "Dorm A"⟩

/-- A second pending entry, from a duplicate call with `res` id 11. -/
def demoEntry2 : Entry := ⟨11, 1, 1, 1, [], "Dorm A"⟩

/-- A sample interleaving: a matching `logResponse`, then the entry's own
timeout wake. -/
def demoEvs : List Event :=
  [.respond 1 "true" 20, .wake "1-2" demoEntry]

/-! ### Helper lemmas -/

theorem fanOutLoop_eq (dispatch : Subscription → Bool) (subs : List Subscription) :
    fanOutLoop dispatch subs
      = ((subs.filter (fun s => dispatch s)).length,
         (subs.filter (fun s => !dispatch s)).map (fun _ => dispatchErrorMsg),
         subs) := by
  induction subs with
  | nil => rfl
  | cons s rest ih =>
    simp only [fanOutLoop, ih]
    cases h : dispatch s <;> simp [List.filter_cons, h]

theorem filter_length_split (dispatch : Subscription → Bool)
    (subs : List Subscription) :
    (subs.filter (fun s => dispatch s)).length
      + (subs.filter (fun s => !dispatch s)).length = subs.length := by
  induction subs with
  | nil => rfl
  | cons s rest ih =>
    cases h : dispatch s <;> simp [List.filter_cons, h] <;> omega

theorem natToString_length_one (n : Nat) (h : n < 10) :
    (toString n).length = 1 := by
  interval_cases n <;> rfl

theorem padded_length_two (n : Nat) (h : n < 60) :
    (if (toString n).length = 1 then "0" ++ toString n else toString n).length
      = 2 := by
  interval_cases n <;> rfl

theorem jsSubstring_neg_two (s : String) : jsSubstring (-2) s = s := by
  show s.drop 0 = s
  rw [String.drop_eq, List.drop_zero]

theorem logResponseLoop_eq (u : Nat) (c : String) (m : AlarmMap) :
    logResponseLoop u c m
      = (m.filter (fun p => !(p.2.ownerUserId == u)),
         (m.filter (fun p => p.2.ownerUserId == u)).map
           (fun p => ⟨p.2.resId, 200, responseBody c p.2⟩)) := by
  induction m with
  | nil => rfl
  | cons p rest ih =>
    obtain ⟨k, e⟩ := p
    simp only [logResponseLoop, ih]
    cases h : e.ownerUserId == u <;> simp [List.filter_cons, h]

theorem lastOutput_append_singleton {α : Type} (l : List α) (x : α) :
    (l ++ [x]).getLast? = some x :=
  List.getLast?_concat l

theorem mapGet_mapSet_self (k : String) (e : Entry) (m : AlarmMap) :
    mapGet k (mapSet k e m) = some e := by
  induction m with
  | nil => simp [mapSet, mapGet]
  | cons p rest ih =>
    obtain ⟨k', e'⟩ := p
    cases h : k' == k <;> simp [mapSet, mapGet, h, ih]

theorem outCount_append (r : Nat) (a b : List Output) :
    outCount r (a ++ b) = outCount r a + outCount r b := by
  simp [outCount, List.filter_append]

theorem logResponseLoop_budget (u : Nat) (c : String) (r : Nat)
    (m : AlarmMap) :
    outCount r (logResponseLoop u c m).2
      + sinkCount r (logResponseLoop u c m).1 = sinkCount r m := by
  induction m with
  | nil => rfl
  | cons p rest ih =>
    obtain ⟨k, e⟩ := p
    simp only [logResponseLoop]
    cases hm : e.ownerUserId == u <;> cases hr : e.resId == r <;>
      simp only [outCount, sinkCount, List.filter_cons, hm, hr, cond_true,
        cond_false, if_true, if_false, Bool.false_eq_true, ite_false,
        ite_true, List.length_cons] at ih ⊢ <;>
      omega

theorem logResponseLoop_map_subset (u : Nat) (c : String) (m : AlarmMap) :
    ∀ p ∈ (logResponseLoop u c m).1, p ∈ m := by
  rw [logResponseLoop_eq]
  intro p hp
  exact List.mem_of_mem_filter hp

theorem mapGet_mem (k : String) (m : AlarmMap) (e : Entry)
    (h : mapGet k m = some e) : (k, e) ∈ m := by
  induction m with
  | nil => simp [mapGet] at h
  | cons p rest ih =>
    obtain ⟨k', e'⟩ := p
    cases hk : k' == k
    · rw [mapGet, hk] at h
      simp only [Bool.false_eq_true, if_false] at h
      exact List.mem_cons_of_mem _ (ih h)
    · rw [mapGet, hk] at h
      simp only [if_true] at h
      obtain rfl : e' = e := Option.some.inj h
      obtain rfl : k' = k := by simpa using hk
      exact List.mem_cons_self _ _

theorem wakeStep_hit (k : String) (e : Entry) (s : Sys) (e0 : Entry)
    (h : mapGet k s.map = some e0) :
    wakeStep k e s
      = { map := mapDelete k s.map,
          outputs := s.outputs ++ [⟨e.resId, 200, timeoutBody e⟩] } := by
  simp [wakeStep, h]

theorem wakeStep_miss (k : String) (e : Entry) (s : Sys)
    (h : mapGet k s.map = none) : wakeStep k e s = s := by
  simp [wakeStep, h]

theorem mapDelete_sinkCount (k : String) (r : Nat) (m : AlarmMap)
    (e0 : Entry) (hget : mapGet k m = some e0) (hr : e0.resId = r) :
    sinkCount r (mapDelete k m) + 1 = sinkCount r m := by
  induction m with
  | nil => simp [mapGet] at hget
  | cons p rest ih =>
    obtain ⟨k', e'⟩ := p
    cases hk : k' == k
    · rw [mapGet, hk] at hget
      simp only [Bool.false_eq_true, if_false] at hget
      have hrec := ih hget
      cases hre : e'.resId == r <;>
        simp only [mapDelete, hk, Bool.false_eq_true, if_false, sinkCount,
          List.filter_cons, hre, ite_true, ite_false, List.length_cons]
          at hrec ⊢ <;>
        omega
    · rw [mapGet, hk] at hget
      simp only [if_true, Option.some.injEq] at hget
      have hre : (e'.resId == r) = true := by
        rw [hget, hr]
        exact beq_self_eq_true r
      simp only [mapDelete, hk, if_true, sinkCount, List.filter_cons, hre,
        eq_self_iff_true, ite_true, List.length_cons]

theorem mapDelete_subset (k : String) (m : AlarmMap) :
    ∀ p ∈ mapDelete k m, p ∈ m := by
  induction m with
  | nil => intro p hp; exact absurd hp (List.not_mem_nil p)
  | cons q rest ih =>
    obtain ⟨k', e'⟩ := q
    intro p hp
    cases hk : k' == k
    · rw [mapDelete, hk] at hp
      simp only [Bool.false_eq_true, if_false] at hp
      rcases List.mem_cons.mp hp with rfl | hp'
      · exact List.mem_cons_self _ _
      · exact List.mem_cons_of_mem _ (ih p hp')
    · rw [mapDelete, hk] at hp
      simp only [if_true] at hp
      exact List.mem_cons_of_mem _ hp

theorem oneCompletionInv_step (k : String) (e : Entry) (ev : Event) (s : Sys)
    (hev : isObserverEvent k e ev)
    (hinv : oneCompletionInv k e.resId s) :
    oneCompletionInv k e.resId (step ev s) := by
  obtain ⟨hbudget, hkey⟩ := hinv
  cases ev with
  | wake k' e' =>
    obtain ⟨hk, he⟩ := hev
    subst hk he
    simp only [step]
    cases hget : mapGet k' s.map with
    | none =>
      rw [wakeStep_miss k' e' s hget]
      exact ⟨hbudget, hkey⟩
    | some e0 =>
      rw [wakeStep_hit k' e' s e0 hget]
      have hmem := mapGet_mem k' s.map e0 hget
      have hr : e0.resId = e'.resId := hkey _ hmem rfl
      have hdel := mapDelete_sinkCount k' e'.resId s.map e0 hget hr
      refine ⟨?_, ?_⟩
      · show outCount e'.resId
            (s.outputs ++ [⟨e'.resId, 200, timeoutBody e'⟩])
            + sinkCount e'.resId (mapDelete k' s.map) ≤ 1
        rw [outCount_append]
        have h1 : outCount e'.resId [⟨e'.resId, 200, timeoutBody e'⟩] = 1 := by
          simp [outCount, List.filter_cons]
        omega
      · intro p hp hpk
        exact hkey p (mapDelete_subset k' s.map p hp) hpk
  | respond u c rid =>
    have hrid : rid ≠ e.resId := hev
    simp only [step, logResponse]
    refine ⟨?_, ?_⟩
    · show outCount e.resId
          (s.outputs ++ (logResponseLoop u c s.map).2
            ++ [⟨rid, 200, Body.text "Response received"⟩])
          + sinkCount e.resId (logResponseLoop u c s.map).1 ≤ 1
      rw [outCount_append, outCount_append]
      have h1 : outCount e.resId [⟨rid, 200, Body.text "Response received"⟩]
          = 0 := by
        have hb : (rid == e.resId) = false := beq_eq_false_iff_ne.mpr hrid
        simp [outCount, List.filter_cons, hb]
      have h2 := logResponseLoop_budget u c e.resId s.map
      omega
    · intro p hp hpk
      exact hkey p (logResponseLoop_map_subset u c s.map p hp) hpk

theorem oneCompletionInv_run (k : String) (e : Entry) (evs : List Event)
    (hobs : ∀ ev ∈ evs, isObserverEvent k e ev) (s : Sys)
    (hinv : oneCompletionInv k e.resId s) :
    oneCompletionInv k e.resId (run evs s) := by
  induction evs generalizing s with
  | nil => exact hinv
  | cons ev rest ih =>
    exact ih (fun ev' h' => hobs ev' (List.mem_cons_of_mem _ h'))
      (step ev s)
      (oneCompletionInv_step k e ev s (hobs ev (List.mem_cons_self _ _)) hinv)

/-! ### Claim theorems -/

/-- C6: fan-out aggregation.  `notifyAllUsers` on an empty subscription list
returns `{total: 0, successCount: 0, errors: []}` and hands nothing to the
push dispatcher; on `N` subscriptions of which `K` dispatches fail it reports
`successfulNotifications = N - K` and `K` error entries, and every
subscription is dispatched (no short-circuiting on failure, no retries). -/
theorem notifyAllUsers_aggregation (dispatch : Subscription → Bool) :
    notifyAllUsers dispatch [] = (⟨0, 0, []⟩, []) ∧
    ∀ subs : List Subscription,
      (notifyAllUsers dispatch subs).1.totalSubscriptions = subs.length ∧
      (notifyAllUsers dispatch subs).1.successfulNotifications
        = subs.length - (subs.filter (fun s => !dispatch s)).length ∧
      (notifyAllUsers dispatch subs).1.errors.length
        = (subs.filter (fun s => !dispatch s)).length ∧
      (notifyAllUsers dispatch subs).2 = subs := by
  refine ⟨rfl, fun subs => ?_⟩
  by_cases hlen : subs.length = 0
  · have hnil : subs = [] := List.length_eq_zero.mp hlen
    subst hnil
    exact ⟨rfl, rfl, rfl, rfl⟩
  · have hsplit := filter_length_split dispatch subs
    refine ⟨by simp [notifyAllUsers, hlen, fanOutLoop_eq], ?_,
            by simp [notifyAllUsers, hlen, fanOutLoop_eq],
            by simp [notifyAllUsers, hlen, fanOutLoop_eq]⟩
    simp only [notifyAllUsers, hlen, if_false, fanOutLoop_eq]
    omega

/-- C10: in the notification prompt's trigger-time formatting, whenever the
local seconds component of the timestamp is a single digit, the `seconds`
branch of `unixToDate` concatenates `"0"` with the `minutes` variable, so the
rendered seconds portion equals `"0"` followed by the (padded) minutes string
and differs from the correctly padded seconds value. -/
theorem unixToDate_seconds_padding_bug (tz ts : Nat) (h : ts % 60 < 10) :
    unixToDate tz ts
      = toString ((ts + tz * 60) / 3600 % 24) ++ ":" ++ paddedMinutesStr tz ts
          ++ ":" ++ ("0" ++ paddedMinutesStr tz ts) ∧
    "0" ++ paddedMinutesStr tz ts ≠ correctPaddedSecondsStr tz ts := by
  have hsec : (ts + tz * 60) % 60 = ts % 60 := Nat.add_mul_mod_self_right ts tz 60
  have hsec10 : (ts + tz * 60) % 60 < 10 := by rw [hsec]; exact h
  have hslen : (toString ((ts + tz * 60) % 60)).length = 1 :=
    natToString_length_one _ hsec10
  constructor
  · simp only [unixToDate, paddedMinutesStr, hslen, if_true, jsSubstring_neg_two]
  · intro heq
    have hm : (paddedMinutesStr tz ts).length = 2 :=
      padded_length_two _ (Nat.mod_lt _ (by norm_num))
    have hs : (correctPaddedSecondsStr tz ts).length = 2 :=
      padded_length_two _ (Nat.mod_lt _ (by norm_num))
    have h1 : ("0" ++ paddedMinutesStr tz ts).length = 3 := by
      rw [String.length_append, hm]; rfl
    have h2 := congrArg String.length heq
    rw [h1, hs] at h2
    exact absurd h2 (by norm_num)

/-- C4: a `logResponse` call completes every pending entry whose
`ownerUserId` equals the responding user's id with the same `confirmed`
value and the `{location, counts, errors}` captured in that entry, removes
exactly those entries from `alarmMap`, and leaves all other users' entries
in place. -/
theorem logResponse_completes_matching (u : Nat) (c : String) (rid : Nat)
    (s : Sys) :
    (logResponse u c rid s).map
        = s.map.filter (fun p => !(p.2.ownerUserId == u)) ∧
    (logResponse u c rid s).outputs
        = s.outputs
          ++ (s.map.filter (fun p => p.2.ownerUserId == u)).map
              (fun p => ⟨p.2.resId, 200, responseBody c p.2⟩)
          ++ [⟨rid, 200, Body.text "Response received"⟩] := by
  simp [logResponse, logResponseLoop_eq]

/-- C5: a `logResponse` call matching no pending entry is a silent no-op on
`alarmMap` and still succeeds; the `/response` endpoint always answers the
responder with HTTP 200 `'Response received'`. -/
theorem logResponse_no_match_noop (u : Nat) (c : String) (rid : Nat) (s : Sys)
    (h : ∀ p ∈ s.map, p.2.ownerUserId ≠ u) :
    logResponse u c rid s
      = { map := s.map,
          outputs := s.outputs ++ [⟨rid, 200, Body.text "Response received"⟩] } ∧
    ∀ (u' : Nat) (c' : String) (rid' : Nat) (s' : Sys),
      (logResponse u' c' rid' s').outputs.getLast?
        = some ⟨rid', 200, Body.text "Response received"⟩ := by
  constructor
  · have hf : s.map.filter (fun p => !(p.2.ownerUserId == u)) = s.map := by
      apply List.filter_eq_self.mpr
      intro p hp
      simpa using h p hp
    have hf2 : s.map.filter (fun p => p.2.ownerUserId == u) = [] := by
      apply List.filter_eq_nil_iff.mpr
      intro p hp
      simpa using h p hp
    simp [logResponse, logResponseLoop_eq, hf, hf2]
  · intro u' c' rid' s'
    simp only [logResponse]
    exact lastOutput_append_singleton _ _

/-- C7: when the alarm serial is absent, the alarm has no assigned user, or
the owning user has no subscriptions, `confirmAlarm` returns 404 with no
side effects: nothing is handed to the push dispatcher and `alarmMap` is
untouched. -/
theorem confirmAlarm_notFound_no_side_effects (store : Store)
    (dispatch : Subscription → Bool) (alarmId : String)
    (timeStamp resId : Nat) (m : AlarmMap)
    (h : findAlarmsBySerial store alarmId = [] ∨
         (∃ alarm restA, findAlarmsBySerial store alarmId = alarm :: restA ∧
            jsFalsyId alarm.userId = true) ∨
         (∃ alarm restA, findAlarmsBySerial store alarmId = alarm :: restA ∧
            jsFalsyId alarm.userId = false ∧
            findSubscriptionsByUser store (alarm.userId.getD 0) = [])) :
    ∃ msg : String,
      confirmAlarmStart store dispatch alarmId timeStamp resId
        = (.notFound 404 msg, []) ∧
      confirmAlarmEffect
        (confirmAlarmStart store dispatch alarmId timeStamp resId).1 m = m := by
  rcases h with h1 | ⟨alarm, restA, hfind, hfalsy⟩ | ⟨alarm, restA, hfind, hfalsy, hsubs⟩
  · refine ⟨"Couldn't find alarm with provided alarm ID", ?_, ?_⟩ <;>
      simp [confirmAlarmStart, h1, confirmAlarmEffect]
  · refine ⟨"Alarm doesn't have a user assigned", ?_, ?_⟩ <;>
      simp [confirmAlarmStart, hfind, hfalsy, confirmAlarmEffect]
  · refine ⟨"Couldn't find user in subscriptions", ?_, ?_⟩ <;>
      simp [confirmAlarmStart, hfind, hfalsy, hsubs, confirmAlarmEffect]

/-- C2: for a valid alarm (serial found, user assigned, at least one
subscription), `confirmAlarm` inserts the pending entry built from the
dispatch-time fan-out, and a matching `logResponse(u, c)` arriving before
the timeout completes the suspended caller with `confirmed = c` and the
captured `{location, totalSubscriptions, successfulNotifications, errors}`,
after which the timeout wake is a no-op. -/
theorem confirmAlarm_response_roundtrip (store : Store)
    (dispatch : Subscription → Bool) (alarmId : String)
    (timeStamp resId : Nat) (alarm : Alarm) (restA : List Alarm) (u : Nat)
    (subs : List Subscription) (key : String) (e : Entry)
    (hfind : findAlarmsBySerial store alarmId = alarm :: restA)
    (huser : alarm.userId = some u) (hu : u ≠ 0)
    (hsubsEq : findSubscriptionsByUser store u = subs) (hsubs : subs ≠ [])
    (hkey : key = toString alarm.id ++ "-" ++ toString timeStamp)
    (he : e = ⟨resId, u, subs.length, (fanOutLoop dispatch subs).1,
               (fanOutLoop dispatch subs).2.1, alarm.location⟩)
    (c : String) (rid : Nat) :
    confirmAlarmStart store dispatch alarmId timeStamp resId
        = (.inserted key e, (fanOutLoop dispatch subs).2.2) ∧
    (logResponse u c rid (insertStep key e ⟨[], []⟩)).outputs
        = [⟨resId, 200, Body.confirmResult c alarm.location subs.length
              (fanOutLoop dispatch subs).1 (fanOutLoop dispatch subs).2.1⟩,
           ⟨rid, 200, Body.text "Response received"⟩] ∧
    (logResponse u c rid (insertStep key e ⟨[], []⟩)).map = [] ∧
    wakeStep key e (logResponse u c rid (insertStep key e ⟨[], []⟩))
        = logResponse u c rid (insertStep key e ⟨[], []⟩) := by
  subst hsubsEq hkey he
  have hlen : (findSubscriptionsByUser store u).length ≠ 0 := by
    simpa using fun hl => hsubs (List.length_eq_zero.mp hl)
  refine ⟨?_, ?_, ?_, ?_⟩
  · simp [confirmAlarmStart, hfind, huser, jsFalsyId, hu, hlen]
  · simp [logResponse, logResponseLoop, insertStep, mapSet, responseBody]
  · simp [logResponse, logResponseLoop, insertStep, mapSet]
  · simp [wakeStep, logResponse, logResponseLoop, insertStep, mapSet, mapGet]

/-- C3: for a valid alarm whose pending entry receives no matching response,
the timeout wake removes the entry from `alarmMap` and answers the caller
with the `'null'` confirmation marker plus the fan-out counts and location
captured at dispatch time; the suspension is the fixed 15-second
`delay(15)`. -/
theorem confirmAlarm_timeout_null (store : Store)
    (dispatch : Subscription → Bool) (alarmId : String)
    (timeStamp resId : Nat) (alarm : Alarm) (restA : List Alarm) (u : Nat)
    (subs : List Subscription) (key : String) (e : Entry)
    (hfind : findAlarmsBySerial store alarmId = alarm :: restA)
    (huser : alarm.userId = some u) (hu : u ≠ 0)
    (hsubsEq : findSubscriptionsByUser store u = subs) (hsubs : subs ≠ [])
    (hkey : key = toString alarm.id ++ "-" ++ toString timeStamp)
    (he : e = ⟨resId, u, subs.length, (fanOutLoop dispatch subs).1,
               (fanOutLoop dispatch subs).2.1, alarm.location⟩) :
    confirmAlarmStart store dispatch alarmId timeStamp resId
        = (.inserted key e, (fanOutLoop dispatch subs).2.2) ∧
    wakeStep key e (insertStep key e ⟨[], []⟩)
        = { map := [],
            outputs := [⟨resId, 200,
              Body.confirmResult "null" alarm.location subs.length
                (fanOutLoop dispatch subs).1 (fanOutLoop dispatch subs).2.1⟩] } ∧
    mapGet key (wakeStep key e (insertStep key e ⟨[], []⟩)).map = none ∧
    confirmDelaySeconds = 15 ∧ delayMs confirmDelaySeconds = 15000 := by
  subst hsubsEq hkey he
  have hlen : (findSubscriptionsByUser store u).length ≠ 0 := by
    simpa using fun hl => hsubs (List.length_eq_zero.mp hl)
  refine ⟨?_, ?_, ?_, rfl, rfl⟩
  · simp [confirmAlarmStart, hfind, huser, jsFalsyId, hu, hlen]
  · simp [wakeStep, insertStep, mapSet, mapGet, mapDelete, timeoutBody]
  · simp [wakeStep, insertStep, mapSet, mapGet, mapDelete]

/-- C8: two `confirmAlarm` calls for the same `(alarmId, timestamp)` pair
compute the same correlation key; while the first entry is live the second
call silently overwrites it in `alarmMap` — the second call is not rejected
(no BadRequest/Conflict: it also returns `inserted`), and afterwards the
key is bound to the second entry. -/
theorem confirmAlarm_duplicate_overwrite (store : Store)
    (dispatch : Subscription → Bool) (alarmId : String) (timeStamp : Nat)
    (res1 res2 : Nat) (alarm : Alarm) (restA : List Alarm) (u : Nat)
    (subs : List Subscription) (key : String)
    (hfind : findAlarmsBySerial store alarmId = alarm :: restA)
    (huser : alarm.userId = some u) (hu : u ≠ 0)
    (hsubsEq : findSubscriptionsByUser store u = subs) (hsubs : subs ≠ [])
    (hkey : key = toString alarm.id ++ "-" ++ toString timeStamp)
    (hres : res1 ≠ res2) (m : AlarmMap) :
    ∃ e1 e2 : Entry,
      (confirmAlarmStart store dispatch alarmId timeStamp res1).1
          = .inserted key e1 ∧
      (confirmAlarmStart store dispatch alarmId timeStamp res2).1
          = .inserted key e2 ∧
      e1 ≠ e2 ∧
      mapGet key (confirmAlarmEffect (StartResult.inserted key e2)
        (confirmAlarmEffect (StartResult.inserted key e1) m)) = some e2 := by
  subst hsubsEq hkey
  have hlen : (findSubscriptionsByUser store u).length ≠ 0 := by
    simpa using fun hl => hsubs (List.length_eq_zero.mp hl)
  refine ⟨⟨res1, u, (findSubscriptionsByUser store u).length,
            (fanOutLoop dispatch (findSubscriptionsByUser store u)).1,
            (fanOutLoop dispatch (findSubscriptionsByUser store u)).2.1,
            alarm.location⟩,
          ⟨res2, u, (findSubscriptionsByUser store u).length,
            (fanOutLoop dispatch (findSubscriptionsByUser store u)).1,
            (fanOutLoop dispatch (findSubscriptionsByUser store u)).2.1,
            alarm.location⟩, ?_, ?_, ?_, ?_⟩
  · simp [confirmAlarmStart, hfind, huser, jsFalsyId, hu, hlen]
  · simp [confirmAlarmStart, hfind, huser, jsFalsyId, hu, hlen]
  · intro heq
    exact hres (congrArg Entry.resId heq)
  · simp [confirmAlarmEffect, mapGet_mapSet_self]

/-- C9: after a duplicate-key overwrite with no user response, the first
inserter's timeout wake finds the key still present (bound to the second
entry), deletes it and answers its own caller with its own captured timeout
data; the second inserter's wake then finds the key absent and writes
nothing — the second caller never receives a reply. -/
theorem duplicate_key_second_caller_starved (k : String) (e1 e2 : Entry)
    (h : e1.resId ≠ e2.resId) :
    (run [.wake k e1, .wake k e2]
        (insertStep k e2 (insertStep k e1 ⟨[], []⟩))).outputs
        = [⟨e1.resId, 200, timeoutBody e1⟩] ∧
    outCount e2.resId
        (run [.wake k e1, .wake k e2]
          (insertStep k e2 (insertStep k e1 ⟨[], []⟩))).outputs = 0 ∧
    (run [.wake k e1, .wake k e2]
        (insertStep k e2 (insertStep k e1 ⟨[], []⟩))).map = [] := by
  have hrun : run [.wake k e1, .wake k e2]
      (insertStep k e2 (insertStep k e1 ⟨[], []⟩))
      = { map := [], outputs := [⟨e1.resId, 200, timeoutBody e1⟩] } := by
    simp [run, step, insertStep, mapSet, wakeStep, mapGet, mapDelete]
  refine ⟨by rw [hrun], ?_, by rw [hrun]⟩
  rw [hrun]
  have hbeq : (e1.resId == e2.resId) = false := beq_eq_false_iff_ne.mpr h
  simp [outCount, List.filter, hbeq]

/-- C1: at most one completion ever occurs for a pending entry.  Starting
from a state whose `alarmMap` holds the single entry `(k, e)`, any
interleaving of the entry's own timeout wake with `logResponse` calls
answers the suspended caller at most once — whichever observes-and-removes
the entry first wins and the other takes its no-op branch.  In particular,
two `logResponse` calls for the entry's user resolve it exactly once: the
first empties the map and answers the caller, and the second leaves the
map empty and writes nothing beyond its own `'Response received'`. -/
theorem pending_entry_at_most_one_completion (k : String) (e : Entry)
    (evs : List Event) (hobs : ∀ ev ∈ evs, isObserverEvent k e ev)
    (c c' : String) (rid rid' : Nat)
    (hrid : rid ≠ e.resId) (hrid' : rid' ≠ e.resId) :
    outCount e.resId (run evs ⟨[(k, e)], []⟩).outputs ≤ 1 ∧
    (step (.respond e.ownerUserId c rid) ⟨[(k, e)], []⟩).map = [] ∧
    outCount e.resId
        (step (.respond e.ownerUserId c rid) ⟨[(k, e)], []⟩).outputs = 1 ∧
    (step (.respond e.ownerUserId c' rid')
        (step (.respond e.ownerUserId c rid) ⟨[(k, e)], []⟩)).map = [] ∧
    (step (.respond e.ownerUserId c' rid')
        (step (.respond e.ownerUserId c rid) ⟨[(k, e)], []⟩)).outputs
      = (step (.respond e.ownerUserId c rid) ⟨[(k, e)], []⟩).outputs
        ++ [⟨rid', 200, Body.text "Response received"⟩] := by
  have hb : (rid == e.resId) = false := beq_eq_false_iff_ne.mpr hrid
  have hinv0 : oneCompletionInv k e.resId ⟨[(k, e)], []⟩ := by
    constructor
    · simp [outCount, sinkCount, List.filter_cons]
    · intro p hp hpk
      rcases List.mem_cons.mp hp with rfl | hp'
      · rfl
      · exact absurd hp' (List.not_mem_nil p)
  have hrun := oneCompletionInv_run k e evs hobs _ hinv0
  obtain ⟨hle, -⟩ := hrun
  refine ⟨by omega, ?_, ?_, ?_, ?_⟩
  all_goals simp [step, logResponse, logResponseLoop, outCount,
    List.filter_cons, hb]

/-! ### Witnesses: the theorems instantiated on the sample data -/

theorem demoEvs_observer :
    ∀ ev ∈ demoEvs, isObserverEvent "1-2" demoEntry ev := by
  intro ev hev
  rcases List.mem_cons.mp hev with rfl | hev'
  · exact (by decide : (20 : Nat) ≠ 10)
  · rcases List.mem_cons.mp hev' with rfl | hev''
    · exact ⟨rfl, rfl⟩
    · exact absurd hev'' (List.not_mem_nil _)

theorem unixToDate_seconds_padding_bug_witness :
    65 % 60 < 10 ∧
    (unixToDate 0 65
        = toString ((65 + 0 * 60) / 3600 % 24) ++ ":" ++ paddedMinutesStr 0 65
          ++ ":" ++ ("0" ++ paddedMinutesStr 0 65) ∧
      "0" ++ paddedMinutesStr 0 65 ≠ correctPaddedSecondsStr 0 65) :=
  ⟨by decide, unixToDate_seconds_padding_bug 0 65 (by decide)⟩

theorem logResponse_no_match_noop_witness :
    (∀ p ∈ (⟨[("1-2", demoEntry)], []⟩ : Sys).map, p.2.ownerUserId ≠ 7) ∧
    (logResponse 7 "true" 20 ⟨[("1-2", demoEntry)], []⟩
        = { map := [("1-2", demoEntry)],
            outputs := [⟨20, 200, Body.text "Response received"⟩] } ∧
      ∀ (u' : Nat) (c' : String) (rid' : Nat) (s' : Sys),
        (logResponse u' c' rid' s').outputs.getLast?
          = some ⟨rid', 200, Body.text "Response received"⟩) :=
  ⟨by intro p hp
      rcases List.mem_cons.mp hp with rfl | hp'
      · exact (by decide : (1 : Nat) ≠ 7)
      · exact absurd hp' (List.not_mem_nil _),
   logResponse_no_match_noop 7 "true" 20 ⟨[("1-2", demoEntry)], []⟩
     (by intro p hp
         rcases List.mem_cons.mp hp with rfl | hp'
         · exact (by decide : (1 : Nat) ≠ 7)
         · exact absurd hp' (List.not_mem_nil _))⟩

theorem confirmAlarm_notFound_witness :
    (findAlarmsBySerial emptyStore "A1" = [] ∨
      (∃ alarm restA, findAlarmsBySerial emptyStore "A1" = alarm :: restA ∧
        jsFalsyId alarm.userId = true) ∨
      (∃ alarm restA, findAlarmsBySerial emptyStore "A1" = alarm :: restA ∧
        jsFalsyId alarm.userId = false ∧
        findSubscriptionsByUser emptyStore (alarm.userId.getD 0) = [])) ∧
    ∃ msg : String,
      confirmAlarmStart emptyStore allOk "A1" 2 10 = (.notFound 404 msg, []) ∧
      confirmAlarmEffect (confirmAlarmStart emptyStore allOk "A1" 2 10).1
        [("1-2", demoEntry)] = [("1-2", demoEntry)] :=
  ⟨Or.inl (by decide),
   confirmAlarm_notFound_no_side_effects emptyStore allOk "A1" 2 10
     [("1-2", demoEntry)] (Or.inl (by decide))⟩

theorem confirmAlarm_response_roundtrip_witness :
    findAlarmsBySerial demoStore "A1" = demoAlarm :: [] ∧
    demoAlarm.userId = some 1 ∧ (1 : Nat) ≠ 0 ∧
    findSubscriptionsByUser demoStore 1 = [demoSub] ∧
    ([demoSub] : List Subscription) ≠ [] ∧
    "1-2" = toString demoAlarm.id ++ "-" ++ toString 2 ∧
    demoEntry = ⟨10, 1, [demoSub].length, (fanOutLoop allOk [demoSub]).1,
                 (fanOutLoop allOk [demoSub]).2.1, demoAlarm.location⟩ ∧
    (confirmAlarmStart demoStore allOk "A1" 2 10
        = (.inserted "1-2" demoEntry, (fanOutLoop allOk [demoSub]).2.2) ∧
      (logResponse 1 "true" 11
          (insertStep "1-2" demoEntry ⟨[], []⟩)).outputs
        = [⟨10, 200, Body.confirmResult "true" demoAlarm.location
              [demoSub].length (fanOutLoop allOk [demoSub]).1
              (fanOutLoop allOk [demoSub]).2.1⟩,
           ⟨11, 200, Body.text "Response received"⟩] ∧
      (logResponse 1 "true" 11 (insertStep "1-2" demoEntry ⟨[], []⟩)).map
        = [] ∧
      wakeStep "1-2" demoEntry
          (logResponse 1 "true" 11 (insertStep "1-2" demoEntry ⟨[], []⟩))
        = logResponse 1 "true" 11 (insertStep "1-2" demoEntry ⟨[], []⟩)) :=
  ⟨by decide, rfl, by decide, by decide, by decide, by decide, by decide,
   confirmAlarm_response_roundtrip demoStore allOk "A1" 2 10 demoAlarm [] 1
     [demoSub] "1-2" demoEntry (by decide) rfl (by decide) (by decide)
     (by decide) (by decide) (by decide) "true" 11⟩

theorem confirmAlarm_timeout_null_witness :
    findAlarmsBySerial demoStore "A1" = demoAlarm :: [] ∧
    demoAlarm.userId = some 1 ∧ (1 : Nat) ≠ 0 ∧
    findSubscriptionsByUser demoStore 1 = [demoSub] ∧
    ([demoSub] : List Subscription) ≠ [] ∧
    "1-2" = toString demoAlarm.id ++ "-" ++ toString 2 ∧
    demoEntry = ⟨10, 1, [demoSub].length, (fanOutLoop allOk [demoSub]).1,
                 (fanOutLoop allOk [demoSub]).2.1, demoAlarm.location⟩ ∧
    (confirmAlarmStart demoStore allOk "A1" 2 10
        = (.inserted "1-2" demoEntry, (fanOutLoop allOk [demoSub]).2.2) ∧
      wakeStep "1-2" demoEntry (insertStep "1-2" demoEntry ⟨[], []⟩)
        = { map := [],
            outputs := [⟨10, 200,
              Body.confirmResult "null" demoAlarm.location [demoSub].length
                (fanOutLoop allOk [demoSub]).1
                (fanOutLoop allOk [demoSub]).2.1⟩] } ∧
      mapGet "1-2"
          (wakeStep "1-2" demoEntry (insertStep "1-2" demoEntry ⟨[], []⟩)).map
        = none ∧
      confirmDelaySeconds = 15 ∧ delayMs confirmDelaySeconds = 15000) :=
  ⟨by decide, rfl, by decide, by decide, by decide, by decide, by decide,
   confirmAlarm_timeout_null demoStore allOk "A1" 2 10 demoAlarm [] 1
     [demoSub] "1-2" demoEntry (by decide) rfl (by decide) (by decide)
     (by decide) (by decide) (by decide)⟩

theorem confirmAlarm_duplicate_overwrite_witness :
    findAlarmsBySerial demoStore "A1" = demoAlarm :: [] ∧
    demoAlarm.userId = some 1 ∧ (1 : Nat) ≠ 0 ∧
    findSubscriptionsByUser demoStore 1 = [demoSub] ∧
    ([demoSub] : List Subscription) ≠ [] ∧
    "1-2" = toString demoAlarm.id ++ "-" ++ toString 2 ∧
    (10 : Nat) ≠ 11 ∧
    ∃ e1 e2 : Entry,
      (confirmAlarmStart demoStore allOk "A1" 2 10).1 = .inserted "1-2" e1 ∧
      (confirmAlarmStart demoStore allOk "A1" 2 11).1 = .inserted "1-2" e2 ∧
      e1 ≠ e2 ∧
      mapGet "1-2" (confirmAlarmEffect (StartResult.inserted "1-2" e2)
        (confirmAlarmEffect (StartResult.inserted "1-2" e1) [])) = some e2 :=
  ⟨by decide, rfl, by decide, by decide, by decide, by decide, by decide,
   confirmAlarm_duplicate_overwrite demoStore allOk "A1" 2 10 11 demoAlarm []
     1 [demoSub] "1-2" (by decide) rfl (by decide) (by decide) (by decide)
     (by decide) (by decide) []⟩

theorem duplicate_key_second_caller_starved_witness :
    demoEntry.resId ≠ demoEntry2.resId ∧
    ((run [.wake "1-2" demoEntry, .wake "1-2" demoEntry2]
        (insertStep "1-2" demoEntry2
          (insertStep "1-2" demoEntry ⟨[], []⟩))).outputs
        = [⟨demoEntry.resId, 200, timeoutBody demoEntry⟩] ∧
      outCount demoEntry2.resId
        (run [.wake "1-2" demoEntry, .wake "1-2" demoEntry2]
          (insertStep "1-2" demoEntry2
            (insertStep "1-2" demoEntry ⟨[], []⟩))).outputs = 0 ∧
      (run [.wake "1-2" demoEntry, .wake "1-2" demoEntry2]
        (insertStep "1-2" demoEntry2
          (insertStep "1-2" demoEntry ⟨[], []⟩))).map = []) :=
  ⟨by decide,
   duplicate_key_second_caller_starved "1-2" demoEntry demoEntry2 (by decide)⟩

theorem pending_entry_at_most_one_completion_witness :
    (∀ ev ∈ demoEvs, isObserverEvent "1-2" demoEntry ev) ∧
    (20 : Nat) ≠ demoEntry.resId ∧ (21 : Nat) ≠ demoEntry.resId ∧
    (outCount demoEntry.resId
        (run demoEvs ⟨[("1-2", demoEntry)], []⟩).outputs ≤ 1 ∧
      (step (.respond demoEntry.ownerUserId "true" 20)
          ⟨[("1-2", demoEntry)], []⟩).map = [] ∧
      outCount demoEntry.resId
        (step (.respond demoEntry.ownerUserId "true" 20)
          ⟨[("1-2", demoEntry)], []⟩).outputs = 1 ∧
      (step (.respond demoEntry.ownerUserId "false" 21)
          (step (.respond demoEntry.ownerUserId "true" 20)
            ⟨[("1-2", demoEntry)], []⟩)).map = [] ∧
      (step (.respond demoEntry.ownerUserId "false" 21)
          (step (.respond demoEntry.ownerUserId "true" 20)
            ⟨[("1-2", demoEntry)], []⟩)).outputs
        = (step (.respond demoEntry.ownerUserId "true" 20)
            ⟨[("1-2", demoEntry)], []⟩).outputs
          ++ [⟨21, 200, Body.text "Response received"⟩]) :=
  ⟨demoEvs_observer, by decide, by decide,
   pending_entry_at_most_one_completion "1-2" demoEntry demoEvs
     demoEvs_observer "true" "false" 20 21 (by decide) (by decide)⟩

end FireAlarm
